import Mathlib

/-!
Verification of the soil-moisture anomaly-detection pipeline
(earthmind-edge). The TypeScript sources are shallowly embedded:
JS numbers become rationals, JS arrays become lists, the ambient
random source becomes explicit oracle arguments, and fallible
operations return Except. Each claim about the code is stated and
settled as a theorem over these embeddings.
-/

/-- Kernel-computable floor of a rational: numerator over
denominator in integer division (the denominator is positive, so
this is floor division). -/
def ratFloor (q : ℚ) : ℤ := q.num / q.den

theorem ratFloor_eq_floor (q : ℚ) : ratFloor q = ⌊q⌋ := by
  rw [ratFloor]
  conv_rhs => rw [← Rat.num_div_den q]
  exact (Rat.floor_intCast_div_natCast q.num q.den).symm

/-- Model of the JS rounding used by toFixed and Math.round:
round to the given number of decimal digits, ties toward positive
infinity (ECMA picks the larger candidate), which matches Mathlib
round. -/
def roundTo (digits : ℕ) (q : ℚ) : ℚ :=
  ((ratFloor (q * 10 ^ digits + 1 / 2) : ℤ) : ℚ) / 10 ^ digits

theorem roundTo_eq_round (digits : ℕ) (q : ℚ) :
    roundTo digits q = ((round (q * 10 ^ digits) : ℤ) : ℚ) / 10 ^ digits := by
  rw [roundTo, ratFloor_eq_floor, round_eq]

/-! ## src/lib/dataGenerator.ts -/

/-- SoilDataPoint record from dataGenerator.ts. -/
structure SoilDataPoint where
  timestamp : ℕ
  moisture : ℚ
  isAnomaly : Bool
deriving DecidableEq, Inhabited

/-- generateNormalMoisture from dataGenerator.ts. The transcendental
Math.sin is an abstract oracle argument, and the Math.random() draw
for the noise term is passed in explicitly. -/
def generateNormalMoisture (jsSin : ℚ → ℚ) (rand : ℚ) (t : ℕ) : ℚ :=
  let base := 45 + 10 * jsSin ((t : ℚ) * (5 / 100)) + 5 * jsSin ((t : ℚ) * (13 / 100) + 6 / 5)
  let noise := (rand - 1 / 2) * 4
  max 20 (min 80 (base + noise))

/-- One iteration of the anomaly-position sampler:
Math.floor(Math.random() * (numPoints - 40)) + 20 applied to one
random draw r. -/
def anomalyIndexOfDraw (numPoints : ℕ) (r : ℚ) : ℕ :=
  (⌊r * ((numPoints : ℚ) - 40)⌋).toNat + 20

/-- The while loop of generateSoilData that fills anomalySet. The
loop consumes one random draw per iteration until the set reaches
anomalyCount elements; posDraws is the finite trace of draws the
loop consumed. An execution in which the loop terminated is exactly
an execution whose trace makes the resulting card equal
anomalyCount. -/
def buildAnomalySet (numPoints anomalyCount : ℕ) (posDraws : List ℚ) : Finset ℕ :=
  posDraws.foldl
    (fun s r => if s.card < anomalyCount then insert (anomalyIndexOfDraw numPoints r) s else s)
    ∅

/-- generateSoilData from dataGenerator.ts. Randomness is made
explicit: posDraws feeds the anomaly-position while loop, noiseDraw i
is the Math.random() consumed by generateNormalMoisture at index i,
and typeDraw i is the spike/drop coin at index i. The anomaly count
floor(numPoints * 0.08) is Nat division numPoints * 8 / 100. -/
def generateSoilData (jsSin : ℚ → ℚ) (noiseDraw typeDraw : ℕ → ℚ) (posDraws : List ℚ)
    (numPoints : ℕ) (anomalyIntensity : ℚ) : List SoilDataPoint :=
  let anomalyCount := numPoints * 8 / 100
  let anomalySet := buildAnomalySet numPoints anomalyCount posDraws
  (List.range numPoints).map fun i =>
    let baseMoisture := generateNormalMoisture jsSin (noiseDraw i) i
    if i ∈ anomalySet then
      let magnitude := 20 + anomalyIntensity * 30
      let anomalyValue :=
        if typeDraw i > 1 / 2 then min 100 (baseMoisture + magnitude)
        else max 0 (baseMoisture - magnitude)
      { timestamp := i, moisture := anomalyValue, isAnomaly := true }
    else
      { timestamp := i, moisture := baseMoisture, isAnomaly := false }

/-- createWindows from dataGenerator.ts: the loop runs i from 0
while i <= data.length - windowSize, pushing data.slice(i, i + w). -/
def createWindows (data : List ℚ) (windowSize : ℕ) : List (List ℚ) :=
  (List.range (data.length + 1 - windowSize)).map fun i => (data.drop i).take windowSize

/-- Result record of normalizeWindows. -/
structure NormalizeResult where
  normalized : List (List ℚ)
  min : ℚ
  max : ℚ
deriving DecidableEq

/-- Math.min over a spread list: left fold of min over the elements.
For the empty spread JS gives Infinity; 0 stands in, and every use
below only reads the value when the list is nonempty or the value is
irrelevant. -/
def jsListMin : List ℚ → ℚ
  | [] => 0
  | x :: xs => xs.foldl min x

/-- Math.max over a spread list, dually to jsListMin. -/
def jsListMax : List ℚ → ℚ
  | [] => 0
  | x :: xs => xs.foldl max x

/-- normalizeWindows from dataGenerator.ts. range is
max - min || 1: the JS or-default replaces a zero range by 1. -/
def normalizeWindows (windows : List (List ℚ)) : NormalizeResult :=
  let flat := windows.flatten
  let mn := jsListMin flat
  let mx := jsListMax flat
  let range := if mx - mn = 0 then 1 else mx - mn
  { normalized := windows.map fun w => w.map fun v => (v - mn) / range
    min := mn
    max := mx }

/-! ## Claim C7: createWindows counts, window length, overlap -/

/-- C7: for every values sequence and positive windowSize w, frame
returns exactly max(0, len - w + 1) windows, each of length exactly
w, and window i+1 drops the first element of window i and appends
the next value. -/
theorem createWindows_frame_spec (data : List ℚ) (w : ℕ) (hw : 1 ≤ w) :
    ((createWindows data w).length : ℤ) = max 0 ((data.length : ℤ) - w + 1)
    ∧ (∀ win ∈ createWindows data w, win.length = w)
    ∧ (∀ i, i + 1 < (createWindows data w).length →
        (createWindows data w).getD (i + 1) [] =
          ((createWindows data w).getD i []).drop 1 ++ [data.getD (i + w) 0]) := by
  refine ⟨?_, ?_, ?_⟩
  · simp only [createWindows, List.length_map, List.length_range]
    omega
  · intro win hwin
    simp only [createWindows, List.mem_map, List.mem_range] at hwin
    obtain ⟨i, hi, rfl⟩ := hwin
    simp only [List.length_take, List.length_drop]
    omega
  · intro i hi
    simp only [createWindows, List.length_map, List.length_range] at hi ⊢
    have hi1 : i + 1 < ((List.range (data.length + 1 - w)).map
        fun i => (data.drop i).take w).length := by
      simpa using hi
    have hi0 : i < ((List.range (data.length + 1 - w)).map
        fun i => (data.drop i).take w).length := by
      simpa using Nat.lt_of_succ_lt hi
    have hlen : i + w < data.length := by
      simp only [List.length_map, List.length_range] at hi1; omega
    rw [List.getD_eq_getElem _ _ hi1, List.getD_eq_getElem _ _ hi0]
    simp only [List.getElem_map, List.getElem_range]
    rw [List.drop_take]
    have hdd : List.drop 1 (List.drop i data) = List.drop (i + 1) data := by
      rw [List.drop_drop]
    rw [hdd]
    have hw1 : w = (w - 1) + 1 := by omega
    conv_lhs => rw [hw1]
    rw [List.take_succ]
    have hget : (List.drop (i + 1) data)[w - 1]? = some (data.getD (i + w) 0) := by
      rw [List.getElem?_drop]
      have : i + 1 + (w - 1) = i + w := by omega
      rw [this, List.getElem?_eq_getElem hlen, List.getD_eq_getElem _ _ hlen]
    rw [hget]
    rfl

/-! ## Claim C6: normalizeWindows bounds and idempotence -/

theorem foldl_min_le_init (xs : List ℚ) : ∀ x : ℚ, xs.foldl min x ≤ x := by
  induction xs with
  | nil => intro x; simp
  | cons a t ih =>
    intro x
    rw [List.foldl_cons]
    exact le_trans (ih (min x a)) (min_le_left x a)

theorem foldl_min_le_of_mem {v : ℚ} {xs : List ℚ} (h : v ∈ xs) :
    ∀ x : ℚ, xs.foldl min x ≤ v := by
  induction xs with
  | nil => cases h
  | cons a t ih =>
    intro x
    rw [List.foldl_cons]
    rcases List.mem_cons.mp h with rfl | hv
    · exact le_trans (foldl_min_le_init t (min x v)) (min_le_right x v)
    · exact ih hv (min x a)

theorem foldl_min_mem (xs : List ℚ) : ∀ x : ℚ, xs.foldl min x = x ∨ xs.foldl min x ∈ xs := by
  induction xs with
  | nil => intro x; left; rfl
  | cons a t ih =>
    intro x
    rw [List.foldl_cons]
    rcases ih (min x a) with h | h
    · rcases min_choice x a with h2 | h2
      · left; rw [h, h2]
      · right; rw [h, h2]; exact List.mem_cons_self a t
    · right; exact List.mem_cons_of_mem a h

theorem foldl_max_init_le (xs : List ℚ) : ∀ x : ℚ, x ≤ xs.foldl max x := by
  induction xs with
  | nil => intro x; simp
  | cons a t ih =>
    intro x
    rw [List.foldl_cons]
    exact le_trans (le_max_left x a) (ih (max x a))

theorem le_foldl_max_of_mem {v : ℚ} {xs : List ℚ} (h : v ∈ xs) :
    ∀ x : ℚ, v ≤ xs.foldl max x := by
  induction xs with
  | nil => cases h
  | cons a t ih =>
    intro x
    rw [List.foldl_cons]
    rcases List.mem_cons.mp h with rfl | hv
    · exact le_trans (le_max_right x v) (foldl_max_init_le t (max x v))
    · exact ih hv (max x a)

theorem foldl_max_mem (xs : List ℚ) : ∀ x : ℚ, xs.foldl max x = x ∨ xs.foldl max x ∈ xs := by
  induction xs with
  | nil => intro x; left; rfl
  | cons a t ih =>
    intro x
    rw [List.foldl_cons]
    rcases ih (max x a) with h | h
    · rcases max_choice x a with h2 | h2
      · left; rw [h, h2]
      · right; rw [h, h2]; exact List.mem_cons_self a t
    · right; exact List.mem_cons_of_mem a h

theorem jsListMin_le_of_mem {v : ℚ} {l : List ℚ} (h : v ∈ l) : jsListMin l ≤ v := by
  cases l with
  | nil => cases h
  | cons x xs =>
    show xs.foldl min x ≤ v
    rcases List.mem_cons.mp h with rfl | hv
    · exact foldl_min_le_init xs v
    · exact foldl_min_le_of_mem hv x

theorem jsListMin_mem {l : List ℚ} (h : l ≠ []) : jsListMin l ∈ l := by
  cases l with
  | nil => exact absurd rfl h
  | cons x xs =>
    show xs.foldl min x ∈ x :: xs
    rcases foldl_min_mem xs x with h2 | h2
    · rw [h2]; exact List.mem_cons_self x xs
    · exact List.mem_cons_of_mem x h2

theorem jsListMin_unique {c : ℚ} {l : List ℚ} (hc : c ∈ l) (hle : ∀ v ∈ l, c ≤ v) :
    jsListMin l = c :=
  le_antisymm (jsListMin_le_of_mem hc) (hle _ (jsListMin_mem (List.ne_nil_of_mem hc)))

theorem le_jsListMax_of_mem {v : ℚ} {l : List ℚ} (h : v ∈ l) : v ≤ jsListMax l := by
  cases l with
  | nil => cases h
  | cons x xs =>
    show v ≤ xs.foldl max x
    rcases List.mem_cons.mp h with rfl | hv
    · exact foldl_max_init_le xs v
    · exact le_foldl_max_of_mem hv x

theorem jsListMax_mem {l : List ℚ} (h : l ≠ []) : jsListMax l ∈ l := by
  cases l with
  | nil => exact absurd rfl h
  | cons x xs =>
    show xs.foldl max x ∈ x :: xs
    rcases foldl_max_mem xs x with h2 | h2
    · rw [h2]; exact List.mem_cons_self x xs
    · exact List.mem_cons_of_mem x h2

theorem jsListMax_unique {c : ℚ} {l : List ℚ} (hc : c ∈ l) (hge : ∀ v ∈ l, v ≤ c) :
    jsListMax l = c :=
  le_antisymm (hge _ (jsListMax_mem (List.ne_nil_of_mem hc))) (le_jsListMax_of_mem hc)

/-- Scaling a value between global bounds lands in the unit
interval, for the range expression max - min || 1 used by
normalizeWindows. -/
theorem normalize_value_mem_unit {mn mx v : ℚ} (h1 : mn ≤ v) (h2 : v ≤ mx) :
    0 ≤ (v - mn) / (if mx - mn = 0 then 1 else mx - mn)
    ∧ (v - mn) / (if mx - mn = 0 then 1 else mx - mn) ≤ 1 := by
  by_cases h0 : mx - mn = 0
  · have hv : v = mn := le_antisymm (by linarith) h1
    rw [if_pos h0, hv]
    norm_num
  · have hlt : 0 < mx - mn := lt_of_le_of_ne (by linarith) (Ne.symm h0)
    rw [if_neg h0]
    constructor
    · exact div_nonneg (by linarith) (le_of_lt hlt)
    · rw [div_le_one hlt]; linarith

/-- C6: for every non-empty batch of windows, normalize yields
values all in the unit interval, and re-normalizing the normalized
output returns the same normalized values. -/
theorem normalizeWindows_unit_and_idempotent (windows : List (List ℚ)) (hne : windows ≠ []) :
    (∀ w ∈ (normalizeWindows windows).normalized, ∀ v ∈ w, 0 ≤ v ∧ v ≤ 1)
    ∧ (normalizeWindows ((normalizeWindows windows).normalized)).normalized
        = (normalizeWindows windows).normalized := by
  have hbounds : ∀ v ∈ windows.flatten,
      jsListMin windows.flatten ≤ v ∧ v ≤ jsListMax windows.flatten :=
    fun v hv => ⟨jsListMin_le_of_mem hv, le_jsListMax_of_mem hv⟩
  have hN : (normalizeWindows windows).normalized
      = windows.map fun w => w.map fun v =>
          (v - jsListMin windows.flatten) /
            (if jsListMax windows.flatten - jsListMin windows.flatten = 0 then 1
             else jsListMax windows.flatten - jsListMin windows.flatten) := rfl
  constructor
  · intro w hw v hv
    rw [hN] at hw
    rw [List.mem_map] at hw
    obtain ⟨w0, hw0, rfl⟩ := hw
    rw [List.mem_map] at hv
    obtain ⟨u, hu, rfl⟩ := hv
    have humem : u ∈ windows.flatten := List.mem_flatten.mpr ⟨w0, hw0, hu⟩
    exact normalize_value_mem_unit (hbounds u humem).1 (hbounds u humem).2
  · -- flat list of the normalized batch is the image of the flat list
    have hflatN : (normalizeWindows windows).normalized.flatten
        = windows.flatten.map fun v =>
            (v - jsListMin windows.flatten) /
              (if jsListMax windows.flatten - jsListMin windows.flatten = 0 then 1
               else jsListMax windows.flatten - jsListMin windows.flatten) := by
      rw [hN, ← List.map_flatten]
    have hN2 : (normalizeWindows ((normalizeWindows windows).normalized)).normalized
        = (normalizeWindows windows).normalized.map fun w => w.map fun v =>
            (v - jsListMin (normalizeWindows windows).normalized.flatten) /
              (if jsListMax (normalizeWindows windows).normalized.flatten
                   - jsListMin (normalizeWindows windows).normalized.flatten = 0 then 1
               else jsListMax (normalizeWindows windows).normalized.flatten
                   - jsListMin (normalizeWindows windows).normalized.flatten) := rfl
    rcases hflat : windows.flatten with _ | ⟨x, xs⟩
    · -- every window is empty, so normalization is the identity on the batch
      have hrows : ∀ w ∈ windows, w = [] := List.flatten_eq_nil_iff.mp hflat
      have hrowsN : ∀ w ∈ (normalizeWindows windows).normalized, w = [] := by
        intro w hw
        rw [hN] at hw
        rw [List.mem_map] at hw
        obtain ⟨w0, hw0, rfl⟩ := hw
        rw [hrows w0 hw0]
        rfl
      rw [hN2]
      calc ((normalizeWindows windows).normalized.map fun w => w.map fun v =>
              (v - jsListMin (normalizeWindows windows).normalized.flatten) /
                (if jsListMax (normalizeWindows windows).normalized.flatten
                     - jsListMin (normalizeWindows windows).normalized.flatten = 0 then 1
                 else jsListMax (normalizeWindows windows).normalized.flatten
                     - jsListMin (normalizeWindows windows).normalized.flatten))
          = (normalizeWindows windows).normalized.map id := by
            apply List.map_congr_left
            intro w hw
            rw [hrowsN w hw]
            rfl
        _ = (normalizeWindows windows).normalized := List.map_id _
    · -- nonempty flat list
      have hxmem : x ∈ windows.flatten := by rw [hflat]; exact List.mem_cons_self x xs
      have hmnmx : jsListMin windows.flatten ≤ jsListMax windows.flatten :=
        le_trans (jsListMin_le_of_mem hxmem) (le_jsListMax_of_mem hxmem)
      by_cases h0 : jsListMax windows.flatten - jsListMin windows.flatten = 0
      · -- constant series: every normalized value is 0
        have hval : ∀ u ∈ windows.flatten,
            (u - jsListMin windows.flatten) /
              (if jsListMax windows.flatten - jsListMin windows.flatten = 0 then 1
               else jsListMax windows.flatten - jsListMin windows.flatten) = 0 := by
          intro u hu
          have h1 := (hbounds u hu).1
          have h2 := (hbounds u hu).2
          have : u = jsListMin windows.flatten := le_antisymm (by linarith) h1
          rw [if_pos h0, this]
          norm_num
        have hmemN : (0 : ℚ) ∈ (normalizeWindows windows).normalized.flatten := by
          rw [hflatN, List.mem_map]
          exact ⟨x, hxmem, hval x hxmem⟩
        have hallN : ∀ u ∈ (normalizeWindows windows).normalized.flatten, u = 0 := by
          intro u hu
          rw [hflatN, List.mem_map] at hu
          obtain ⟨v, hv, rfl⟩ := hu
          exact hval v hv
        have hmnN : jsListMin (normalizeWindows windows).normalized.flatten = 0 :=
          jsListMin_unique hmemN (fun v hv => le_of_eq (hallN v hv).symm)
        have hmxN : jsListMax (normalizeWindows windows).normalized.flatten = 0 :=
          jsListMax_unique hmemN (fun v hv => le_of_eq (hallN v hv))
        rw [hN2, hmnN, hmxN]
        norm_num
      · -- genuinely spread series: min maps to 0, max maps to 1
        have hlt : 0 < jsListMax windows.flatten - jsListMin windows.flatten :=
          lt_of_le_of_ne (by linarith) (Ne.symm h0)
        have hflne : windows.flatten ≠ [] := by rw [hflat]; exact List.cons_ne_nil x xs
        have hmnmem : jsListMin windows.flatten ∈ windows.flatten := jsListMin_mem hflne
        have hmxmem : jsListMax windows.flatten ∈ windows.flatten := jsListMax_mem hflne
        have hmnN : jsListMin (normalizeWindows windows).normalized.flatten = 0 := by
          apply jsListMin_unique
          · rw [hflatN, List.mem_map]
            refine ⟨jsListMin windows.flatten, hmnmem, ?_⟩
            rw [sub_self, zero_div]
          · intro v hv
            rw [hflatN, List.mem_map] at hv
            obtain ⟨u, hu, rfl⟩ := hv
            exact (normalize_value_mem_unit (hbounds u hu).1 (hbounds u hu).2).1
        have hmxN : jsListMax (normalizeWindows windows).normalized.flatten = 1 := by
          apply jsListMax_unique
          · rw [hflatN, List.mem_map]
            refine ⟨jsListMax windows.flatten, hmxmem, ?_⟩
            rw [if_neg h0]
            exact div_self h0
          · intro v hv
            rw [hflatN, List.mem_map] at hv
            obtain ⟨u, hu, rfl⟩ := hv
            exact (normalize_value_mem_unit (hbounds u hu).1 (hbounds u hu).2).2
        rw [hN2, hmnN, hmxN]
        norm_num

/-! ## src/lib/anomalyDetection.ts -/

/-- DetectionResult record from anomalyDetection.ts. -/
structure DetectionResult where
  windowIndex : ℕ
  timestampCenter : ℕ
  reconstructionError : ℚ
  isAnomaly : Bool
  confidence : ℚ
deriving DecidableEq, Inhabited

/-- detectAnomalies from anomalyDetection.ts. The maxError binding
of the source is computed but never used, so it is omitted here.
Division is total rational division, agreeing with JS for the
positive thresholds the caller uses. -/
def detectAnomalies (errors : List ℚ) (threshold : ℚ) (windowSize : ℕ) : List DetectionResult :=
  errors.enum.map fun p =>
    let i := p.1
    let error := p.2
    let isAnomaly := decide (error > threshold)
    let confidence :=
      if isAnomaly then min 1 (error / (threshold * 2)) else min 1 (1 - error / threshold)
    { windowIndex := i
      timestampCenter := i + windowSize / 2
      reconstructionError := error
      isAnomaly := isAnomaly
      confidence := roundTo 3 confidence }

/-- PerformanceMetrics record from anomalyDetection.ts. -/
structure PerformanceMetrics where
  accuracy : ℚ
  precision : ℚ
  «recall» : ℚ
  f1Score : ℚ
  truePositives : ℕ
  trueNegatives : ℕ
  falsePositives : ℕ
  falseNegatives : ℕ
  totalAnomalies : ℕ
  detectedAnomalies : ℕ
deriving DecidableEq

/-- The four mutable counters of computeMetrics. -/
structure Tally where
  tp : ℕ
  tn : ℕ
  fp : ℕ
  fn : ℕ
deriving DecidableEq

/-- The forEach body of computeMetrics: clamp the center timestamp
into the ground-truth index range, read the label, bump one
counter. JS groundTruth[-1] on an empty list reads undefined, which
is falsy; Nat truncation with getD default false matches that. -/
def tallyStep (groundTruth : List Bool) (acc : Tally) (det : DetectionResult) : Tally :=
  let gtIndex := min det.timestampCenter (groundTruth.length - 1)
  let actualAnomaly := groundTruth.getD gtIndex false
  if det.isAnomaly && actualAnomaly then { acc with tp := acc.tp + 1 }
  else if !det.isAnomaly && !actualAnomaly then { acc with tn := acc.tn + 1 }
  else if det.isAnomaly && !actualAnomaly then { acc with fp := acc.fp + 1 }
  else { acc with fn := acc.fn + 1 }

/-- computeMetrics from anomalyDetection.ts. -/
def computeMetrics (detections : List DetectionResult) (groundTruth : List Bool) :
    PerformanceMetrics :=
  let t := detections.foldl (tallyStep groundTruth) ⟨0, 0, 0, 0⟩
  let total := t.tp + t.tn + t.fp + t.fn
  let accuracy : ℚ := if 0 < total then ((t.tp : ℚ) + t.tn) / total else 0
  let precision : ℚ := if 0 < t.tp + t.fp then (t.tp : ℚ) / ((t.tp : ℚ) + t.fp) else 0
  let «recall» : ℚ := if 0 < t.tp + t.fn then (t.tp : ℚ) / ((t.tp : ℚ) + t.fn) else 0
  let f1Score : ℚ :=
    if 0 < precision + «recall» then 2 * precision * «recall» / (precision + «recall») else 0
  { accuracy := roundTo 1 (accuracy * 100)
    precision := roundTo 1 (precision * 100)
    «recall» := roundTo 1 («recall» * 100)
    f1Score := roundTo 1 (f1Score * 100)
    truePositives := t.tp
    trueNegatives := t.tn
    falsePositives := t.fp
    falseNegatives := t.fn
    totalAnomalies := (groundTruth.filter id).length
    detectedAnomalies := (detections.filter (·.isAnomaly)).length }

/-! ## Claim C3: detectAnomalies classification rule -/

/-- C3: one DetectionResult per error in window order; isAnomaly is
the strict comparison error > threshold; confidence is
min(1, error / (2 threshold)) for anomalies and
min(1, 1 - error / threshold) for normals, rounded to 3 decimals;
timestampCenter is windowIndex + floor(windowSize / 2). -/
theorem detectAnomalies_classify_spec (errors : List ℚ) (threshold : ℚ) (windowSize : ℕ)
    (hnn : ∀ e ∈ errors, 0 ≤ e) :
    (detectAnomalies errors threshold windowSize).length = errors.length
    ∧ ∀ i, i < errors.length →
        (detectAnomalies errors threshold windowSize).getD i default
          = { windowIndex := i
              timestampCenter := i + windowSize / 2
              reconstructionError := errors.getD i 0
              isAnomaly := decide (errors.getD i 0 > threshold)
              confidence := roundTo 3 (if errors.getD i 0 > threshold
                  then min 1 (errors.getD i 0 / (2 * threshold))
                  else min 1 (1 - errors.getD i 0 / threshold)) } := by
  have hlen : (detectAnomalies errors threshold windowSize).length = errors.length := by
    simp [detectAnomalies]
  refine ⟨hlen, ?_⟩
  intro i hi
  have hi' : i < (detectAnomalies errors threshold windowSize).length := by rw [hlen]; exact hi
  rw [List.getD_eq_getElem _ _ hi', List.getD_eq_getElem _ _ hi]
  simp only [detectAnomalies, List.getElem_map, List.getElem_enum]
  have hmul : threshold * 2 = 2 * threshold := mul_comm threshold 2
  by_cases hgt : errors[i] > threshold
  · simp [hgt, hmul]
  · simp [hgt]

/-! ## Claim C8: threshold extremes -/

/-- C8: with a threshold at least every error (as +infinity is),
no window is flagged; with threshold 0, a window is flagged exactly
when its error is strictly positive. -/
theorem detectAnomalies_threshold_extremes (errors : List ℚ) (windowSize : ℕ)
    (hnn : ∀ e ∈ errors, 0 ≤ e) :
    (∀ threshold : ℚ, (∀ e ∈ errors, e ≤ threshold) →
        ((detectAnomalies errors threshold windowSize).filter (·.isAnomaly)).length = 0)
    ∧ (∀ i, i < errors.length →
        ((detectAnomalies errors 0 windowSize).getD i default).isAnomaly
          = decide (0 < errors.getD i 0)) := by
  constructor
  · intro threshold hle
    rw [List.length_eq_zero]
    rw [List.filter_eq_nil_iff]
    intro d hd
    simp only [detectAnomalies, List.mem_map] at hd
    obtain ⟨p, hp, rfl⟩ := hd
    have hmem : p.2 ∈ errors := by
      rw [List.mem_enum_iff_getElem?] at hp
      exact List.getElem?_mem hp
    simp only [Bool.not_eq_true, decide_eq_false_iff_not, not_lt]
    exact hle p.2 hmem
  · intro i hi
    have hlen : (detectAnomalies errors 0 windowSize).length = errors.length := by
      simp [detectAnomalies]
    have hi' : i < (detectAnomalies errors 0 windowSize).length := by rw [hlen]; exact hi
    rw [List.getD_eq_getElem _ _ hi', List.getD_eq_getElem _ _ hi]
    simp only [detectAnomalies, List.getElem_map, List.getElem_enum]

/-! ## Claim C4: computeMetrics on a perfectly matching run -/

theorem tally_foldl_correct (gt : List Bool) :
    ∀ dets : List DetectionResult,
      (∀ d ∈ dets, d.isAnomaly = gt.getD (min d.timestampCenter (gt.length - 1)) false) →
      ∀ acc : Tally,
        dets.foldl (tallyStep gt) acc
          = ⟨acc.tp + (dets.filter (·.isAnomaly)).length,
             acc.tn + (dets.filter (fun d => !d.isAnomaly)).length,
             acc.fp, acc.fn⟩ := by
  intro dets
  induction dets with
  | nil => intro _ acc; simp
  | cons d t ih =>
    intro h acc
    have hd := h d (List.mem_cons_self d t)
    have ht := fun x hx => h x (List.mem_cons_of_mem d hx)
    rw [List.foldl_cons, ih ht]
    by_cases hda : d.isAnomaly
    · have hactual : gt.getD (min d.timestampCenter (gt.length - 1)) false = true :=
        hd.symm.trans hda
      have hstep : tallyStep gt acc d = { acc with tp := acc.tp + 1 } := by
        simp only [tallyStep]
        rw [hactual, hda]
        simp
      rw [hstep]
      simp [List.filter_cons, hda, Tally.mk.injEq]
      omega
    · have hda' : d.isAnomaly = false := Bool.eq_false_iff.mpr hda
      have hactual : gt.getD (min d.timestampCenter (gt.length - 1)) false = false :=
        hd.symm.trans hda'
      have hstep : tallyStep gt acc d = { acc with tn := acc.tn + 1 } := by
        simp only [tallyStep]
        rw [hactual, hda']
        simp
      rw [hstep]
      simp [List.filter_cons, hda', Tally.mk.injEq]
      omega

theorem length_filter_bool_add (l : List DetectionResult) :
    (l.filter (·.isAnomaly)).length + (l.filter (fun d => !d.isAnomaly)).length = l.length := by
  induction l with
  | nil => rfl
  | cons d t ih =>
    by_cases hd : d.isAnomaly <;>
      simp [List.filter_cons, hd] <;> omega

/-- Rounding an exact integer percentage gives it back. -/
theorem roundTo_one_hundred : roundTo 1 100 = 100 := by
  norm_num [roundTo_eq_round, round_eq]

/-- C4 amended: on a run whose detections exactly reproduce ground
truth under clamped lookup, accuracy is 100 and both error counts
are zero; precision, recall and f1 are 100 as well provided at
least one detection is flagged anomalous (the original claim also
asserted 100 for runs with no flagged detection, where the code
returns 0 instead). -/
theorem computeMetrics_perfect_match (dets : List DetectionResult) (gt : List Bool)
    (hne : dets ≠ [])
    (hmatch : ∀ d ∈ dets, d.isAnomaly = gt.getD (min d.timestampCenter (gt.length - 1)) false) :
    (computeMetrics dets gt).accuracy = 100
    ∧ (computeMetrics dets gt).falsePositives = 0
    ∧ (computeMetrics dets gt).falseNegatives = 0
    ∧ ((∃ d ∈ dets, d.isAnomaly = true) →
        (computeMetrics dets gt).precision = 100
        ∧ (computeMetrics dets gt).«recall» = 100
        ∧ (computeMetrics dets gt).f1Score = 100) := by
  have hfold := tally_foldl_correct gt dets hmatch ⟨0, 0, 0, 0⟩
  simp only [Nat.zero_add] at hfold
  have hsum := length_filter_bool_add dets
  have hpos : 0 < dets.length := List.length_pos.mpr hne
  set A := (dets.filter (·.isAnomaly)).length with hA
  set B := (dets.filter (fun d => !d.isAnomaly)).length with hB
  simp only [computeMetrics, hfold]
  have h1 : 0 < A + B + 0 + 0 := by omega
  have hABpos : (0 : ℚ) < (A : ℚ) + B := by
    have h2 : 0 < A + B := by omega
    exact_mod_cast h2
  have hcast : ((A + B + 0 + 0 : ℕ) : ℚ) = (A : ℚ) + B := by push_cast; ring
  have hacc : roundTo 1
      ((if 0 < A + B + 0 + 0 then ((A : ℚ) + B) / ((A + B + 0 + 0 : ℕ) : ℚ) else 0) * 100)
      = 100 := by
    rw [if_pos h1, hcast, div_self (ne_of_gt hABpos), one_mul, roundTo_one_hundred]
  refine ⟨hacc, trivial, trivial, ?_⟩
  rintro ⟨d, hdmem, hdano⟩
  have hApos : 0 < A := by
    rw [hA]
    exact List.length_pos.mpr
      (List.ne_nil_of_mem (List.mem_filter.mpr ⟨hdmem, by simp [hdano]⟩))
  have hAq : ((A : ℚ)) ≠ 0 := by
    exact_mod_cast Nat.pos_iff_ne_zero.mp hApos
  have hPval : (if 0 < A + 0 then (A : ℚ) / ((A : ℚ) + ((0 : ℕ) : ℚ)) else 0) = 1 := by
    rw [if_pos (by omega)]
    simp [hAq]
  rw [hPval]
  refine ⟨?_, ?_, ?_⟩ <;> norm_num [roundTo_one_hundred]

/-- C4 as frozen is false: a single correct detection on anomaly-free
ground truth reproduces ground truth exactly, yet precision is 0,
not 100 (the true-positive count is zero, so the code takes the
guarded 0 branch). -/
theorem computeMetrics_perfect_match_counterexample :
    (([{ windowIndex := 0, timestampCenter := 5, reconstructionError := 0,
          isAnomaly := false, confidence := 1 }] : List DetectionResult).all
        fun d => d.isAnomaly
          == ([false, false, false, false, false, false] : List Bool).getD
               (min d.timestampCenter
                 (([false, false, false, false, false, false] : List Bool).length - 1))
               false) = true
    ∧ (computeMetrics
        [{ windowIndex := 0, timestampCenter := 5, reconstructionError := 0,
           isAnomaly := false, confidence := 1 }]
        [false, false, false, false, false, false]).precision = 0
    ∧ ¬ (computeMetrics
        [{ windowIndex := 0, timestampCenter := 5, reconstructionError := 0,
           isAnomaly := false, confidence := 1 }]
        [false, false, false, false, false, false]).precision = 100 := by
  have hval : (computeMetrics
      [{ windowIndex := 0, timestampCenter := 5, reconstructionError := 0,
         isAnomaly := false, confidence := 1 }]
      [false, false, false, false, false, false]).precision = 0 := by
    norm_num [computeMetrics, tallyStep, roundTo_eq_round, round_eq]
  exact ⟨by decide, hval, by rw [hval]; norm_num⟩

/-! ## src/lib/insights.ts -/

/-- The four severity levels of an Insight. -/
inductive InsightType where
  | warning
  | critical
  | info
  | success
deriving DecidableEq

/-- Insight record from insights.ts, keeping the fields the analysis
observes: id, severity type and optional timestep. The icon and
message strings and the wall-clock Date stamp carry no logic and are
omitted. -/
structure Insight where
  id : String
  type : InsightType
  timestep : Option ℕ
deriving DecidableEq

/-- The severity order used by the final sort comparator:
critical 0, warning 1, info 2, success 3. -/
def severityRank : InsightType → ℕ
  | .critical => 0
  | .warning => 1
  | .info => 2
  | .success => 3

/-- Boolean comparator for the stable severity sort. -/
def severityLe (a b : Insight) : Bool :=
  decide (severityRank a.type ≤ severityRank b.type)

/-- The cluster scan of rule 7: walk the anomalous center
timestamps; at the first window of three spanning fewer than 15
timesteps, report the loop index and the middle timestamp and stop.
The JS subtraction is integer subtraction, hence the cast. -/
def findCluster : ℕ → List ℕ → Option (ℕ × ℕ)
  | _, [] => none
  | _, [_] => none
  | _, [_, _] => none
  | i, a :: b :: c :: rest =>
      if (c : ℤ) - (a : ℤ) < 15 then some (i, b)
      else findCluster (i + 1) (b :: c :: rest)

/-- The insight list generateInsights builds before its final sort
and slice: the seven rules of insights.ts pushed in source order.
The early return leaves the list empty when data is empty. -/
def generateInsightsRaw (data : List SoilDataPoint) (detections : List DetectionResult)
    (threshold : ℚ) : List Insight :=
  if data.length = 0 then [] else
  let anomalyCount := (detections.filter (·.isAnomaly)).length
  let insights1 : List Insight :=
    if anomalyCount = 0 then [{ id := "stable", type := .success, timestep := none }] else []
  let anomalyRate : ℚ := (anomalyCount : ℚ) / max (detections.length : ℚ) 1
  let insights2 : List Insight :=
    if anomalyRate > 15 / 100 then
      [{ id := "high-rate", type := .critical, timestep := none }]
    else []
  let insights3 : List Insight :=
    ((List.range data.length).drop 1).filterMap fun i =>
      let delta := (data.getD i default).moisture - (data.getD (i - 1) default).moisture
      if |delta| > 20 then
        some { id := "spike-" ++ toString i, type := .warning, timestep := some i }
      else none
  let insights4 : List Insight :=
    if 20 ≤ data.length then
      let trend := (data.getD (data.length - 1) default).moisture
        - (data.getD (data.length - 20) default).moisture
      if trend < -10 then [{ id := "rapid-decrease", type := .warning, timestep := none }]
      else if trend > 10 then [{ id := "rapid-increase", type := .info, timestep := none }]
      else []
    else []
  let avgMoisture : ℚ := (data.map (·.moisture)).sum / (data.length : ℚ)
  let insights5 : List Insight :=
    if avgMoisture < 30 then [{ id := "low-moisture", type := .critical, timestep := none }]
    else if avgMoisture > 70 then [{ id := "high-moisture", type := .warning, timestep := none }]
    else [{ id := "optimal-moisture", type := .info, timestep := none }]
  let avgError : ℚ :=
    (detections.map (·.reconstructionError)).sum / max (detections.length : ℚ) 1
  let suggestedThreshold := avgError * (5 / 2)
  let insights6 : List Insight :=
    if |suggestedThreshold - threshold| > 5 / 100 ∧ 0 < detections.length then
      [{ id := "threshold-suggestion", type := .info, timestep := none }]
    else []
  let anomalyTimesteps := (detections.filter (·.isAnomaly)).map (·.timestampCenter)
  let insights7 : List Insight :=
    match findCluster 0 anomalyTimesteps with
    | some (i, mid) => [{ id := "cluster-" ++ toString i, type := .critical, timestep := some mid }]
    | none => []
  insights1 ++ insights2 ++ insights3 ++ insights4 ++ insights5 ++ insights6 ++ insights7

/-- generateInsights from insights.ts: build the rule insights, then
sort by severity and truncate to 8. ECMAScript Array.prototype.sort
is stable, so it is embedded as a merge sort with the severity
comparator. -/
def generateInsights (data : List SoilDataPoint) (detections : List DetectionResult)
    (threshold : ℚ) : List Insight :=
  ((generateInsightsRaw data detections threshold).mergeSort severityLe).take 8

/-- The ordering the spec describes, written from its words: the
critical insights in emission order, then the warning ones, then
info, then success. A stable severity sort of a four-valued key is
exactly this bucket concatenation. -/
def stableSeveritySort (l : List Insight) : List Insight :=
  l.filter (fun a => a.type == InsightType.critical)
    ++ l.filter (fun a => a.type == InsightType.warning)
    ++ l.filter (fun a => a.type == InsightType.info)
    ++ l.filter (fun a => a.type == InsightType.success)

/-! ## Claim C5: insight ranking -/

theorem severityLe_trans (a b c : Insight) (hab : severityLe a b = true)
    (hbc : severityLe b c = true) : severityLe a c = true := by
  simp only [severityLe, decide_eq_true_eq] at *
  omega

theorem severityLe_total (a b : Insight) : (severityLe a b || severityLe b a) = true := by
  simp only [severityLe, Bool.or_eq_true, decide_eq_true_eq]
  omega

/-- Filtering one severity type through a cons whose head has that
type keeps the head. -/
theorem filter_type_cons_self (a : Insight) (tl : List Insight) (t : InsightType)
    (hat : a.type = t) :
    (a :: tl).filter (fun x => x.type == t) = a :: tl.filter (fun x => x.type == t) := by
  simp [List.filter_cons, hat]

/-- Filtering one severity type through a cons whose head has a
different type skips the head. -/
theorem filter_type_cons_ne (a : Insight) (tl : List Insight) (t : InsightType)
    (hat : a.type ≠ t) :
    (a :: tl).filter (fun x => x.type == t) = tl.filter (fun x => x.type == t) := by
  simp [List.filter_cons, hat]

/-- Stability of the embedded sort: the sublist of insights of any
one severity type is unchanged by the severity sort. -/
theorem mergeSort_severity_filter (l : List Insight) (t : InsightType) :
    (l.mergeSort severityLe).filter (fun a => a.type == t)
      = l.filter (fun a => a.type == t) := by
  have hpair : (l.filter (fun a => a.type == t)).Pairwise
      (fun a b => severityLe a b = true) := by
    apply List.pairwise_of_forall_mem_list
    intro a ha b hb
    rw [List.mem_filter] at ha hb
    have ha2 : a.type = t := by simpa using ha.2
    have hb2 : b.type = t := by simpa using hb.2
    simp [severityLe, ha2, hb2]
  have hsub : (l.filter (fun a => a.type == t)).Sublist (l.mergeSort severityLe) :=
    List.sublist_mergeSort severityLe_trans severityLe_total hpair (List.filter_sublist l)
  have hsub2 := hsub.filter (fun a => a.type == t)
  rw [List.filter_filter] at hsub2
  simp only [Bool.and_self] at hsub2
  have hperm : ((l.mergeSort severityLe).filter (fun a => a.type == t)).Perm
      (l.filter (fun a => a.type == t)) :=
    (List.mergeSort_perm l severityLe).filter _
  exact (hsub2.eq_of_length hperm.length_eq.symm).symm

/-- A list sorted by severity is the concatenation of its four
severity buckets in rank order. -/
theorem sorted_eq_buckets (s : List Insight)
    (hs : s.Pairwise (fun a b => severityLe a b = true)) :
    s = s.filter (fun a => a.type == InsightType.critical)
      ++ s.filter (fun a => a.type == InsightType.warning)
      ++ s.filter (fun a => a.type == InsightType.info)
      ++ s.filter (fun a => a.type == InsightType.success) := by
  induction s with
  | nil => rfl
  | cons a tl ih =>
    have ha : ∀ b ∈ tl, severityLe a b = true := (List.pairwise_cons.mp hs).1
    have htl := ih (List.pairwise_cons.mp hs).2
    have hrank : ∀ b ∈ tl, severityRank a.type ≤ severityRank b.type := by
      intro b hb
      have h2 := ha b hb
      simpa [severityLe] using h2
    have hnone : ∀ t : InsightType, severityRank t < severityRank a.type →
        tl.filter (fun x => x.type == t) = [] := by
      intro t ht
      rw [List.filter_eq_nil_iff]
      intro b hb hbt
      have hbt2 : b.type = t := by simpa using hbt
      have h3 := hrank b hb
      rw [hbt2] at h3
      omega
    cases hat : a.type with
    | critical =>
      rw [filter_type_cons_self a tl _ hat,
          filter_type_cons_ne a tl InsightType.warning (by rw [hat]; exact fun h => nomatch h),
          filter_type_cons_ne a tl InsightType.info (by rw [hat]; exact fun h => nomatch h),
          filter_type_cons_ne a tl InsightType.success (by rw [hat]; exact fun h => nomatch h)]
      conv_lhs => rw [htl]
      simp
    | warning =>
      have h1 : tl.filter (fun x => x.type == InsightType.critical) = [] := by
        apply hnone; rw [hat]; simp [severityRank]
      rw [filter_type_cons_ne a tl InsightType.critical (by rw [hat]; exact fun h => nomatch h),
          filter_type_cons_self a tl _ hat,
          filter_type_cons_ne a tl InsightType.info (by rw [hat]; exact fun h => nomatch h),
          filter_type_cons_ne a tl InsightType.success (by rw [hat]; exact fun h => nomatch h)]
      conv_lhs => rw [htl]
      rw [h1]
      simp
    | info =>
      have h1 : tl.filter (fun x => x.type == InsightType.critical) = [] := by
        apply hnone; rw [hat]; simp [severityRank]
      have h2 : tl.filter (fun x => x.type == InsightType.warning) = [] := by
        apply hnone; rw [hat]; simp [severityRank]
      rw [filter_type_cons_ne a tl InsightType.critical (by rw [hat]; exact fun h => nomatch h),
          filter_type_cons_ne a tl InsightType.warning (by rw [hat]; exact fun h => nomatch h),
          filter_type_cons_self a tl _ hat,
          filter_type_cons_ne a tl InsightType.success (by rw [hat]; exact fun h => nomatch h)]
      conv_lhs => rw [htl]
      rw [h1, h2]
      simp
    | success =>
      have h1 : tl.filter (fun x => x.type == InsightType.critical) = [] := by
        apply hnone; rw [hat]; simp [severityRank]
      have h2 : tl.filter (fun x => x.type == InsightType.warning) = [] := by
        apply hnone; rw [hat]; simp [severityRank]
      have h3 : tl.filter (fun x => x.type == InsightType.info) = [] := by
        apply hnone; rw [hat]; simp [severityRank]
      rw [filter_type_cons_ne a tl InsightType.critical (by rw [hat]; exact fun h => nomatch h),
          filter_type_cons_ne a tl InsightType.warning (by rw [hat]; exact fun h => nomatch h),
          filter_type_cons_ne a tl InsightType.info (by rw [hat]; exact fun h => nomatch h),
          filter_type_cons_self a tl _ hat]
      conv_lhs => rw [htl]
      rw [h1, h2, h3]
      simp

/-- The embedded stable sort coincides with the spec's bucket
description. -/
theorem mergeSort_severity_eq_stableSeveritySort (l : List Insight) :
    l.mergeSort severityLe = stableSeveritySort l := by
  have hsorted := List.sorted_mergeSort severityLe_trans severityLe_total l
  have hb := sorted_eq_buckets (l.mergeSort severityLe) hsorted
  rw [stableSeveritySort, ← mergeSort_severity_filter l InsightType.critical,
    ← mergeSort_severity_filter l InsightType.warning,
    ← mergeSort_severity_filter l InsightType.info,
    ← mergeSort_severity_filter l InsightType.success]
  exact hb

/-- C5: the insight engine returns at most 8 insights, in
nondecreasing severity rank, and its output is exactly the first 8
elements of the stable severity sort of all emitted rule
insights. -/
theorem generateInsights_ranked_spec (data : List SoilDataPoint)
    (detections : List DetectionResult) (threshold : ℚ) :
    (generateInsights data detections threshold).length ≤ 8
    ∧ (generateInsights data detections threshold).Pairwise
        (fun a b => severityRank a.type ≤ severityRank b.type)
    ∧ generateInsights data detections threshold
        = (stableSeveritySort (generateInsightsRaw data detections threshold)).take 8 := by
  refine ⟨?_, ?_, ?_⟩
  · rw [generateInsights]
    simp [List.length_take]
  · rw [generateInsights]
    have hsorted := List.sorted_mergeSort severityLe_trans severityLe_total
      (generateInsightsRaw data detections threshold)
    have hp := hsorted.sublist (List.take_sublist 8 _)
    exact hp.imp fun h => by simpa [severityLe] using h
  · rw [generateInsights, mergeSort_severity_eq_stableSeveritySort]

/-! ## src/lib/autoencoderModel.ts: the training loop -/

/-- Math.round on a rational: floor of the value plus one half,
ties toward positive infinity. -/
def jsMathRound (q : ℚ) : ℤ := ratFloor (q + 1 / 2)

/-- TrainingConfig from autoencoderModel.ts (the onEpochEnd callback
is modelled by returning the emitted events). -/
structure TrainingConfig where
  epochs : Option ℕ
  batchSize : Option ℕ
  learningRate : Option ℚ
deriving DecidableEq

/-- What a training run produces: the per-epoch loss history and the
onEpochEnd events (epoch number, loss, percent complete). -/
structure TrainResult where
  loss : List ℚ
  progressEvents : List (ℕ × ℚ × ℤ)
deriving DecidableEq

/-- trainAutoencoder from autoencoderModel.ts. The numeric losses
come from the external tfjs fit call and are abstracted as the
oracle lossOf; the epoch loop structure, the default epoch count of
50, the loss-history push and the per-epoch progress callback are
the code's. batchSize is forwarded to the external fit and has no
further observable effect here. -/
def trainAutoencoder (lossOf : ℕ → ℚ) (normalWindows : List (List ℚ))
    (config : TrainingConfig) : TrainResult :=
  let epochs := config.epochs.getD 50
  { loss := (List.range epochs).map lossOf
    progressEvents := (List.range epochs).map fun epoch =>
      (epoch + 1, lossOf epoch, jsMathRound (((epoch : ℚ) + 1) / epochs * 100)) }

/-! ## Claim C9: default epoch count -/

/-- C9 as frozen is false: with no caller-configured epoch count the
loss history has 50 entries, not 60 (the destructuring default in
trainAutoencoder is 50; the 60 the spec quotes is the explicit
config passed by the dashboard caller). -/
theorem trainAutoencoder_default_epochs_counterexample :
    (trainAutoencoder (fun _ => 0) []
        { epochs := none, batchSize := none, learningRate := none }).loss.length = 50
    ∧ ¬ (trainAutoencoder (fun _ => 0) []
        { epochs := none, batchSize := none, learningRate := none }).loss.length = 60 := by
  constructor
  · simp [trainAutoencoder]
  · simp [trainAutoencoder]

/-- C9 amended: called without a caller-configured epoch count,
training runs the default 50 epochs, with one loss entry and one
progress report per epoch. -/
theorem trainAutoencoder_default_epochs (lossOf : ℕ → ℚ) (ws : List (List ℚ))
    (config : TrainingConfig) (hnone : config.epochs = none) :
    (trainAutoencoder lossOf ws config).loss.length = 50
    ∧ (trainAutoencoder lossOf ws config).progressEvents.length = 50
    ∧ (∀ e, e < 50 →
        (trainAutoencoder lossOf ws config).loss.getD e 0 = lossOf e
        ∧ (trainAutoencoder lossOf ws config).progressEvents.getD e (0, 0, 0)
            = (e + 1, lossOf e, jsMathRound (((e : ℚ) + 1) / 50 * 100))) := by
  refine ⟨by simp [trainAutoencoder, hnone], by simp [trainAutoencoder, hnone], ?_⟩
  intro e he
  have h1 : e < ((trainAutoencoder lossOf ws config).loss).length := by
    simp [trainAutoencoder, hnone, he]
  have h2 : e < ((trainAutoencoder lossOf ws config).progressEvents).length := by
    simp [trainAutoencoder, hnone, he]
  rw [List.getD_eq_getElem _ _ h1, List.getD_eq_getElem _ _ h2]
  constructor
  · simp [trainAutoencoder, hnone]
  · simp [trainAutoencoder, hnone]

/-- Witness for the amended C9 at a concrete configuration. -/
theorem trainAutoencoder_default_epochs_witness :
    (trainAutoencoder (fun _ => 0) []
        { epochs := none, batchSize := none, learningRate := none }).loss.length = 50
    ∧ (trainAutoencoder (fun _ => 0) []
        { epochs := none, batchSize := none, learningRate := none }).progressEvents.length = 50
    ∧ (∀ e, e < 50 →
        (trainAutoencoder (fun _ => 0) []
            { epochs := none, batchSize := none, learningRate := none }).loss.getD e 0
          = (fun _ => (0 : ℚ)) e
        ∧ (trainAutoencoder (fun _ => 0) []
            { epochs := none, batchSize := none, learningRate := none
              }).progressEvents.getD e (0, 0, 0)
            = (e + 1, (fun _ => (0 : ℚ)) e, jsMathRound (((e : ℚ) + 1) / 50 * 100))) :=
  trainAutoencoder_default_epochs (fun _ => 0) []
    { epochs := none, batchSize := none, learningRate := none } rfl

/-! ## src/pages/Index.tsx: handleTrain -/

/-- The training-set selection inside handleTrain: the indices i
with soilData[i] not anomalous and i below the number of windows.
The filter tests the sample at the window START index. -/
def normalIndices (soilData : List SoilDataPoint) (normalizedLen : ℕ) : List ℕ :=
  (List.range soilData.length).filter fun i =>
    !(soilData.getD i default).isAnomaly && decide (i < normalizedLen)

/-- handleTrain from pages/Index.tsx, reduced to its data flow: none
models the silent early return on empty data (the normalizedRef
null guard is the same situation); otherwise the selected windows
are trained on, or the insufficient-data error is thrown when fewer
than 10 remain. -/
def handleTrain (soilData : List SoilDataPoint) (normalized : List (List ℚ)) :
    Option (Except String (List (List ℚ))) :=
  if soilData.length = 0 then none
  else
    let idxs := normalIndices soilData normalized.length
    let normalWindows := idxs.map fun i => normalized.getD i []
    if normalWindows.length < 10 then some (Except.error "Not enough normal data for training")
    else some (Except.ok normalWindows)

/-- 30 samples whose indices 21 to 25 are anomalous: every window
start (0 to 20) is normal, but windows 16 to 20 have anomalous
center samples. -/
def cexSoilData : List SoilDataPoint :=
  (List.range 30).map fun i =>
    { timestamp := i, moisture := 0, isAnomaly := decide (21 ≤ i ∧ i ≤ 25) }

/-- The 21 windows of the 30-sample series, as placeholders. -/
def cexNormalized : List (List ℚ) := List.replicate 21 (List.replicate 10 0)

/-! ## Claim C1: which windows train, and the insufficient-data gate -/

/-- C1 as frozen is false: window 16 is selected for training
although its center sample (index 16 + floor(10/2) = 21) is
anomalous, and training proceeds; the code filters on the window
START index, not the center timestamp. -/
theorem handleTrain_center_counterexample :
    16 ∈ normalIndices cexSoilData cexNormalized.length
    ∧ (cexSoilData.getD (16 + 10 / 2) default).isAnomaly = true
    ∧ ((handleTrain cexSoilData cexNormalized).getD (Except.error "")).isOk = true := by
  refine ⟨by decide, by decide, by decide⟩

/-- C1 amended: handleTrain trains on exactly the windows whose
START index holds a non-anomalous sample, and for non-empty data it
fails with the insufficient-data error exactly when fewer than 10
such windows exist (on success the training set is those windows in
index order). -/
theorem handleTrain_start_filter_spec (soilData : List SoilDataPoint)
    (normalized : List (List ℚ)) (hne : soilData ≠ []) :
    (∀ i ∈ normalIndices soilData normalized.length,
        (soilData.getD i default).isAnomaly = false)
    ∧ ((normalIndices soilData normalized.length).length < 10 →
        handleTrain soilData normalized
          = some (Except.error "Not enough normal data for training"))
    ∧ (10 ≤ (normalIndices soilData normalized.length).length →
        handleTrain soilData normalized
          = some (Except.ok ((normalIndices soilData normalized.length).map
              fun i => normalized.getD i []))) := by
  have hlen : soilData.length ≠ 0 := fun h => hne (List.length_eq_zero.mp h)
  refine ⟨?_, ?_, ?_⟩
  · intro i hi
    rw [normalIndices, List.mem_filter] at hi
    have := hi.2
    simp only [Bool.and_eq_true, Bool.not_eq_true'] at this
    exact this.1
  · intro hlt
    rw [handleTrain, if_neg hlen]
    simp only [List.length_map]
    rw [if_pos hlt]
  · intro hge
    rw [handleTrain, if_neg hlen]
    simp only [List.length_map]
    rw [if_neg (by omega)]

/-- Witness for the amended C1: twelve normal samples, twelve
windows, training succeeds on all twelve. -/
theorem handleTrain_start_filter_spec_witness :
    (∀ i ∈ normalIndices (List.replicate 12 { timestamp := 0, moisture := 0, isAnomaly := false })
        (List.replicate 12 ([] : List ℚ)).length,
        ((List.replicate 12
            ({ timestamp := 0, moisture := 0, isAnomaly := false } : SoilDataPoint)).getD i
          default).isAnomaly = false)
    ∧ ((normalIndices (List.replicate 12 { timestamp := 0, moisture := 0, isAnomaly := false })
          (List.replicate 12 ([] : List ℚ)).length).length < 10 →
        handleTrain (List.replicate 12 { timestamp := 0, moisture := 0, isAnomaly := false })
            (List.replicate 12 ([] : List ℚ))
          = some (Except.error "Not enough normal data for training"))
    ∧ (10 ≤ (normalIndices
          (List.replicate 12 { timestamp := 0, moisture := 0, isAnomaly := false })
          (List.replicate 12 ([] : List ℚ)).length).length →
        handleTrain (List.replicate 12 { timestamp := 0, moisture := 0, isAnomaly := false })
            (List.replicate 12 ([] : List ℚ))
          = some (Except.ok ((normalIndices
              (List.replicate 12 { timestamp := 0, moisture := 0, isAnomaly := false })
              (List.replicate 12 ([] : List ℚ)).length).map
                fun i => (List.replicate 12 ([] : List ℚ)).getD i []))) :=
  handleTrain_start_filter_spec
    (List.replicate 12 { timestamp := 0, moisture := 0, isAnomaly := false })
    (List.replicate 12 ([] : List ℚ)) (by decide)

/-! ## src/lib/dataGenerator.ts: parseCSV -/

/-- SoilDataPoint as produced by parseCSV, with moisture in the JS
number domain including NaN: none models NaN (the only field the
parser could leave NaN after its defaulting). -/
structure CSVDataPoint where
  timestamp : ℤ
  moisture : Option ℚ
  isAnomaly : Bool
deriving DecidableEq, Inhabited

/-- Substring test over character lists, modelling the JS
String.prototype.includes used on the header. -/
def charsContains : List Char → List Char → Bool
  | [], pat => pat.isEmpty
  | c :: rest, pat => pat.isPrefixOf (c :: rest) || charsContains rest pat

/-- toLowerCase over a character list. -/
def jsToLower (s : List Char) : List Char := s.map Char.toLower

/-- split(",") over a character list: cut at every separator,
keeping empty segments, never empty output. -/
def splitOnChar (sep : Char) (s : List Char) : List (List Char) :=
  s.foldr (fun c acc =>
    if c = sep then [] :: acc else (c :: acc.headD []) :: acc.tail) [[]]

/-- trim() over a character list. -/
def trimChars (s : List Char) : List Char :=
  ((s.dropWhile Char.isWhitespace).reverse.dropWhile Char.isWhitespace).reverse

/-- line.split(",").map(p => p.trim()) of parseCSV. -/
def csvParts (line : List Char) : List (List Char) :=
  (splitOnChar ',' line).map trimChars

/-- The JS or-default parseFloat(x) || 50 of parseCSV: NaN (none)
and the falsy exact 0 both become 50. -/
def jsFloatOr50 (v : Option ℚ) : Option ℚ :=
  match v with
  | none => some 50
  | some x => if x = 0 then some 50 else some x

/-- The JS or-default parseInt(x) || i of parseCSV. -/
def jsIntOrIdx (v : Option ℤ) (i : ℤ) : ℤ :=
  match v with
  | none => i
  | some z => if z = 0 then i else z

/-- Whether the lowercased header line mentions moisture. -/
def hasMoistureHeader (lines : List (List Char)) : Bool :=
  charsContains (jsToLower (lines.headD [])) ("moisture".toList)

/-- The field a row's moisture is read from: the second column under
a moisture header, else the first. -/
def moistureFieldOfRow (hasMoisture : Bool) (line : List Char) : List Char :=
  if hasMoisture then (csvParts line).getD 1 [] else (csvParts line).getD 0 []

/-- One row of parseCSV's map. parseFloat and parseInt are abstract
oracles pf and pi returning none for NaN; a missing column is read
as the empty field, on which the real parseFloat yields NaN. -/
def parseCSVRow (hasMoisture : Bool) (pf : List Char → Option ℚ) (pi : List Char → Option ℤ)
    (i : ℕ) (line : List Char) : CSVDataPoint :=
  if hasMoisture then
    { timestamp := jsIntOrIdx (pi ((csvParts line).getD 0 [])) (i : ℤ)
      moisture := jsFloatOr50 (pf ((csvParts line).getD 1 []))
      isAnomaly := false }
  else
    { timestamp := (i : ℤ)
      moisture := jsFloatOr50 (pf ((csvParts line).getD 0 []))
      isAnomaly := false }

/-- parseCSV from dataGenerator.ts, starting from the line list that
csvText.trim().split(newline) produced: map each line after the
header to a row, then filter out rows whose moisture is NaN. -/
def parseCSV (pf : List Char → Option ℚ) (pi : List Char → Option ℤ)
    (lines : List (List Char)) : List CSVDataPoint :=
  ((lines.drop 1).enum.map fun p =>
      parseCSVRow (hasMoistureHeader lines) pf pi p.1 p.2).filter
    fun p => !p.moisture.isNone

theorem parseCSVRow_moisture (h : Bool) (pf : List Char → Option ℚ)
    (pi : List Char → Option ℤ) (i : ℕ) (line : List Char) :
    (parseCSVRow h pf pi i line).moisture = jsFloatOr50 (pf (moistureFieldOfRow h line)) := by
  cases h <;> rfl

theorem jsFloatOr50_isSome (v : Option ℚ) : (jsFloatOr50 v).isSome = true := by
  cases v with
  | none => rfl
  | some x =>
    rw [jsFloatOr50]
    by_cases hx : x = 0 <;> simp [hx]

/-! ## Claim C10: the NaN filter drops nothing, and 0 becomes 50 -/

/-- C10: parseCSV returns one sample per line after the header (the
final NaN filter never drops a row, every moisture having been
defaulted to a number already), and a moisture field that parses to
exactly 0 is recorded as moisture 50: the falsy or-default
conflates the valid reading 0 with an unparseable field. -/
theorem parseCSV_no_drop_and_zero_is_fifty (pf : List Char → Option ℚ)
    (pi : List Char → Option ℤ) (lines : List (List Char)) :
    (parseCSV pf pi lines).length = lines.length - 1
    ∧ (∀ i, i < lines.length - 1 →
        pf (moistureFieldOfRow (hasMoistureHeader lines) ((lines.drop 1).getD i [])) = some 0 →
        ((parseCSV pf pi lines).getD i default).moisture = some 50) := by
  have hfilter : parseCSV pf pi lines
      = (lines.drop 1).enum.map fun p =>
          parseCSVRow (hasMoistureHeader lines) pf pi p.1 p.2 := by
    rw [parseCSV]
    apply List.filter_eq_self.mpr
    intro p hp
    rw [List.mem_map] at hp
    obtain ⟨q, _, rfl⟩ := hp
    rw [Bool.not_eq_true']
    rw [Option.isNone_eq_false_iff, Option.isSome_iff_ne_none] at *
    rw [parseCSVRow_moisture]
    have := jsFloatOr50_isSome (pf (moistureFieldOfRow (hasMoistureHeader lines) q.2))
    exact Option.isSome_iff_ne_none.mp this
  constructor
  · rw [hfilter]
    simp
  · intro i hi h0
    have hlen : i < ((lines.drop 1).enum.map fun p =>
        parseCSVRow (hasMoistureHeader lines) pf pi p.1 p.2).length := by
      simpa using (by omega : i < lines.length - 1)
    have hi2 : i < (lines.drop 1).length := by
      simp only [List.length_drop]
      omega
    rw [hfilter, List.getD_eq_getElem _ _ hlen]
    rw [List.getElem_map, List.getElem_enum, parseCSVRow_moisture]
    have hline : (lines.drop 1)[i] = (lines.drop 1).getD i [] :=
      (List.getD_eq_getElem (lines.drop 1) [] hi2).symm
    rw [hline, h0]
    rfl

/-! ## Claim C2: generateSoilData shape, bounds, anomaly count -/

theorem anomalyIndexOfDraw_bounds (numPoints : ℕ) (r : ℚ) (hn : 41 ≤ numPoints)
    (h0 : 0 ≤ r) (h1 : r < 1) :
    20 ≤ anomalyIndexOfDraw numPoints r ∧ anomalyIndexOfDraw numPoints r < numPoints - 20 := by
  have hge : (41 : ℚ) ≤ (numPoints : ℚ) := by exact_mod_cast hn
  have hpos : (0 : ℚ) < (numPoints : ℚ) - 40 := by linarith
  have hnn : 0 ≤ ⌊r * ((numPoints : ℚ) - 40)⌋ :=
    Int.floor_nonneg.mpr (mul_nonneg h0 (le_of_lt hpos))
  have hlt : ⌊r * ((numPoints : ℚ) - 40)⌋ < ((numPoints - 40 : ℕ) : ℤ) := by
    apply Int.floor_lt.mpr
    have hmul : r * ((numPoints : ℚ) - 40) < 1 * ((numPoints : ℚ) - 40) :=
      mul_lt_mul_of_pos_right h1 hpos
    have hcast : (((numPoints - 40 : ℕ) : ℤ) : ℚ) = (numPoints : ℚ) - 40 := by
      push_cast [Nat.cast_sub (by omega : 40 ≤ numPoints)]
      ring
    rw [hcast]
    linarith
  have htn : (⌊r * ((numPoints : ℚ) - 40)⌋).toNat < numPoints - 40 :=
    (Int.toNat_lt hnn).mpr hlt
  rw [anomalyIndexOfDraw]
  omega

theorem buildAnomalySet_subset (numPoints anomalyCount : ℕ) (posDraws : List ℚ)
    (hn : 41 ≤ numPoints) (hdr : ∀ r ∈ posDraws, 0 ≤ r ∧ r < 1) :
    ∀ j ∈ buildAnomalySet numPoints anomalyCount posDraws,
      20 ≤ j ∧ j < numPoints - 20 := by
  rw [buildAnomalySet]
  suffices h : ∀ (draws : List ℚ), (∀ r ∈ draws, 0 ≤ r ∧ r < 1) →
      ∀ s : Finset ℕ, (∀ j ∈ s, 20 ≤ j ∧ j < numPoints - 20) →
      ∀ j ∈ draws.foldl
        (fun s r => if s.card < anomalyCount then insert (anomalyIndexOfDraw numPoints r) s
          else s) s,
        20 ≤ j ∧ j < numPoints - 20 by
    exact h posDraws hdr ∅ (by intro j hj; cases hj)
  intro draws
  induction draws with
  | nil => intro _ s hs j hj; exact hs j hj
  | cons r t ih =>
    intro hall s hs j hj
    rw [List.foldl_cons] at hj
    refine ih (fun x hx => hall x (List.mem_cons_of_mem r hx)) _ ?_ j hj
    intro x hx
    by_cases hc : s.card < anomalyCount
    · rw [if_pos hc] at hx
      rcases Finset.mem_insert.mp hx with rfl | hxs
      · exact anomalyIndexOfDraw_bounds numPoints r hn
          (hall r (List.mem_cons_self r t)).1 (hall r (List.mem_cons_self r t)).2
      · exact hs x hxs
    · rw [if_neg hc] at hx
      exact hs x hx

theorem countP_range_mem_finset (n : ℕ) (S : Finset ℕ) (hS : ∀ j ∈ S, j < n) :
    (List.range n).countP (fun i => decide (i ∈ S)) = S.card := by
  rw [List.countP_eq_length_filter]
  have hnodup : ((List.range n).filter fun i => decide (i ∈ S)).Nodup :=
    (List.nodup_range n).filter _
  have hperm : ((List.range n).filter fun i => decide (i ∈ S)).Perm S.toList := by
    rw [List.perm_ext_iff_of_nodup hnodup (Finset.nodup_toList S)]
    intro a
    rw [List.mem_filter, List.mem_range, Finset.mem_toList]
    constructor
    · rintro ⟨_, h⟩
      exact of_decide_eq_true h
    · intro h
      exact ⟨hS a h, decide_eq_true h⟩
  rw [hperm.length_eq, Finset.length_toList]

theorem generateNormalMoisture_bounds (jsSin : ℚ → ℚ) (rand : ℚ) (t : ℕ) :
    20 ≤ generateNormalMoisture jsSin rand t
      ∧ generateNormalMoisture jsSin rand t ≤ 80 := by
  rw [generateNormalMoisture]
  constructor
  · exact le_max_left _ _
  · exact max_le (by norm_num) (min_le_left _ _)

/-- C2: for at least 100 points, intensity in the unit interval,
in-range position draws and a terminating position loop, the
generator returns exactly numPoints samples with timestamp equal to
index, all moisture in the 0 to 100 range, exactly
floor(0.08 numPoints) anomalous samples, and no anomaly in the
first or last 20 indices. -/
theorem generateSoilData_spec (jsSin : ℚ → ℚ) (noiseDraw typeDraw : ℕ → ℚ)
    (posDraws : List ℚ) (numPoints : ℕ) (anomalyIntensity : ℚ)
    (hn : 100 ≤ numPoints)
    (hint0 : 0 ≤ anomalyIntensity) (hint1 : anomalyIntensity ≤ 1)
    (hdr : ∀ r ∈ posDraws, 0 ≤ r ∧ r < 1)
    (hcard : (buildAnomalySet numPoints (numPoints * 8 / 100) posDraws).card
        = numPoints * 8 / 100) :
    (generateSoilData jsSin noiseDraw typeDraw posDraws numPoints anomalyIntensity).length
        = numPoints
    ∧ (∀ k, k < numPoints →
        ((generateSoilData jsSin noiseDraw typeDraw posDraws numPoints
            anomalyIntensity).getD k default).timestamp = k)
    ∧ (∀ p ∈ generateSoilData jsSin noiseDraw typeDraw posDraws numPoints anomalyIntensity,
        0 ≤ p.moisture ∧ p.moisture ≤ 100)
    ∧ (generateSoilData jsSin noiseDraw typeDraw posDraws numPoints
        anomalyIntensity).countP (·.isAnomaly) = numPoints * 8 / 100
    ∧ (∀ k, k < 20 ∨ numPoints - 20 ≤ k →
        ((generateSoilData jsSin noiseDraw typeDraw posDraws numPoints
            anomalyIntensity).getD k default).isAnomaly = false) := by
  have hsub := buildAnomalySet_subset numPoints (numPoints * 8 / 100) posDraws
    (by omega) hdr
  have hlen : (generateSoilData jsSin noiseDraw typeDraw posDraws numPoints
      anomalyIntensity).length = numPoints := by
    simp [generateSoilData]
  refine ⟨hlen, ?_, ?_, ?_, ?_⟩
  · intro k hk
    have hk2 : k < (generateSoilData jsSin noiseDraw typeDraw posDraws numPoints
        anomalyIntensity).length := by rw [hlen]; exact hk
    rw [List.getD_eq_getElem _ _ hk2]
    simp only [generateSoilData, List.getElem_map, List.getElem_range]
    by_cases hmem : k ∈ buildAnomalySet numPoints (numPoints * 8 / 100) posDraws <;>
      simp [hmem]
  · intro p hp
    simp only [generateSoilData, List.mem_map, List.mem_range] at hp
    obtain ⟨i, _, rfl⟩ := hp
    have hb := generateNormalMoisture_bounds jsSin (noiseDraw i) i
    by_cases hmem : i ∈ buildAnomalySet numPoints (numPoints * 8 / 100) posDraws
    · simp only [if_pos hmem]
      by_cases hty : typeDraw i > 1 / 2
      · simp only [if_pos hty]
        constructor
        · exact le_min (by norm_num) (by nlinarith)
        · exact min_le_left _ _
      · simp only [if_neg hty]
        constructor
        · exact le_max_left _ _
        · exact max_le (by norm_num) (by nlinarith)
    · simp only [if_neg hmem]
      exact ⟨by linarith [hb.1], by linarith [hb.2]⟩
  · rw [generateSoilData]
    rw [List.countP_map]
    rw [List.countP_congr (q := fun i =>
        decide (i ∈ buildAnomalySet numPoints (numPoints * 8 / 100) posDraws)) ?_]
    · rw [countP_range_mem_finset numPoints _ (fun j hj => by
        have := hsub j hj; omega)]
      exact hcard
    · intro x hx
      by_cases hmem : x ∈ buildAnomalySet numPoints (numPoints * 8 / 100) posDraws <;>
        simp [hmem]
  · intro k hk
    by_cases hklen : k < numPoints
    · have hk2 : k < (generateSoilData jsSin noiseDraw typeDraw posDraws numPoints
          anomalyIntensity).length := by rw [hlen]; exact hklen
      rw [List.getD_eq_getElem _ _ hk2]
      simp only [generateSoilData, List.getElem_map, List.getElem_range]
      have hmem : k ∉ buildAnomalySet numPoints (numPoints * 8 / 100) posDraws := by
        intro hin
        have := hsub k hin
        omega
      simp [hmem]
    · rw [List.getD_eq_default _ _ (by rw [hlen]; omega)]
      rfl

/-! ## Witnesses at concrete inputs -/

/-- Witness for C7 at a three-value series with window size 2. -/
theorem createWindows_frame_spec_witness :
    ((createWindows [1, 2, 3] 2).length : ℤ)
        = max 0 ((([1, 2, 3] : List ℚ).length : ℤ) - 2 + 1)
    ∧ (∀ win ∈ createWindows [1, 2, 3] 2, win.length = 2)
    ∧ (∀ i, i + 1 < (createWindows [1, 2, 3] 2).length →
        (createWindows [1, 2, 3] 2).getD (i + 1) [] =
          ((createWindows [1, 2, 3] 2).getD i []).drop 1
            ++ [([1, 2, 3] : List ℚ).getD (i + 2) 0]) :=
  createWindows_frame_spec [1, 2, 3] 2 (by norm_num)

/-- Witness for C6 at the single window 1, 3. -/
theorem normalizeWindows_unit_and_idempotent_witness :
    (∀ w ∈ (normalizeWindows [[1, 3]]).normalized, ∀ v ∈ w, 0 ≤ v ∧ v ≤ 1)
    ∧ (normalizeWindows ((normalizeWindows [[1, 3]]).normalized)).normalized
        = (normalizeWindows [[1, 3]]).normalized :=
  normalizeWindows_unit_and_idempotent [[1, 3]] (List.cons_ne_nil _ _)

/-- Witness for C3 at two errors and threshold one half. -/
theorem detectAnomalies_classify_spec_witness :
    (detectAnomalies [0, 1] (1 / 2) 10).length = ([0, 1] : List ℚ).length
    ∧ ∀ i, i < ([0, 1] : List ℚ).length →
        (detectAnomalies [0, 1] (1 / 2) 10).getD i default
          = { windowIndex := i
              timestampCenter := i + 10 / 2
              reconstructionError := ([0, 1] : List ℚ).getD i 0
              isAnomaly := decide (([0, 1] : List ℚ).getD i 0 > 1 / 2)
              confidence := roundTo 3 (if ([0, 1] : List ℚ).getD i 0 > 1 / 2
                  then min 1 (([0, 1] : List ℚ).getD i 0 / (2 * (1 / 2)))
                  else min 1 (1 - ([0, 1] : List ℚ).getD i 0 / (1 / 2))) } :=
  detectAnomalies_classify_spec [0, 1] (1 / 2) 10 (by
    intro e he
    fin_cases he <;> norm_num)

/-- Witness for C8 at the same two errors. -/
theorem detectAnomalies_threshold_extremes_witness :
    (∀ threshold : ℚ, (∀ e ∈ ([0, 1] : List ℚ), e ≤ threshold) →
        ((detectAnomalies [0, 1] threshold 10).filter (·.isAnomaly)).length = 0)
    ∧ (∀ i, i < ([0, 1] : List ℚ).length →
        ((detectAnomalies [0, 1] 0 10).getD i default).isAnomaly
          = decide (0 < ([0, 1] : List ℚ).getD i 0)) :=
  detectAnomalies_threshold_extremes [0, 1] 10 (by
    intro e he
    fin_cases he <;> norm_num)

/-- One detection flagging a true anomaly, for the C4 witness. -/
def perfectDet : DetectionResult :=
  { windowIndex := 0, timestampCenter := 5, reconstructionError := 0,
    isAnomaly := true, confidence := 1 }

/-- Witness for the amended C4: one correctly flagged anomaly. -/
theorem computeMetrics_perfect_match_witness :
    (computeMetrics [perfectDet] [true]).accuracy = 100
    ∧ (computeMetrics [perfectDet] [true]).falsePositives = 0
    ∧ (computeMetrics [perfectDet] [true]).falseNegatives = 0
    ∧ ((∃ d ∈ [perfectDet], d.isAnomaly = true) →
        (computeMetrics [perfectDet] [true]).precision = 100
        ∧ (computeMetrics [perfectDet] [true]).«recall» = 100
        ∧ (computeMetrics [perfectDet] [true]).f1Score = 100) :=
  computeMetrics_perfect_match [perfectDet] [true]
    (List.cons_ne_nil _ _)
    (by
      intro d hd
      rcases List.mem_singleton.mp hd with rfl
      rfl)

/-- Witness for C2: 100 points, intensity one half, and eight
position draws k over 60 for k from 0 to 7, which land on indices
20 to 27. -/
theorem generateSoilData_spec_witness :
    (generateSoilData (fun _ => 0) (fun _ => 0) (fun _ => 0)
        [0, 1 / 60, 2 / 60, 3 / 60, 4 / 60, 5 / 60, 6 / 60, 7 / 60] 100 (1 / 2)).length = 100
    ∧ (generateSoilData (fun _ => 0) (fun _ => 0) (fun _ => 0)
        [0, 1 / 60, 2 / 60, 3 / 60, 4 / 60, 5 / 60, 6 / 60, 7 / 60] 100
        (1 / 2)).countP (·.isAnomaly) = 100 * 8 / 100
    ∧ (∀ p ∈ generateSoilData (fun _ => 0) (fun _ => 0) (fun _ => 0)
        [0, 1 / 60, 2 / 60, 3 / 60, 4 / 60, 5 / 60, 6 / 60, 7 / 60] 100 (1 / 2),
        0 ≤ p.moisture ∧ p.moisture ≤ 100) := by
  have e0 : anomalyIndexOfDraw 100 0 = 20 := by norm_num [anomalyIndexOfDraw]
  have e1 : anomalyIndexOfDraw 100 (1 / 60) = 21 := by norm_num [anomalyIndexOfDraw]
  have e2 : anomalyIndexOfDraw 100 (2 / 60) = 22 := by
    rw [anomalyIndexOfDraw]
    norm_num
    all_goals decide
  have e3 : anomalyIndexOfDraw 100 (3 / 60) = 23 := by
    rw [anomalyIndexOfDraw]
    norm_num
    all_goals decide
  have e4 : anomalyIndexOfDraw 100 (4 / 60) = 24 := by
    rw [anomalyIndexOfDraw]
    norm_num
    all_goals decide
  have e5 : anomalyIndexOfDraw 100 (5 / 60) = 25 := by
    rw [anomalyIndexOfDraw]
    norm_num
    all_goals decide
  have e6 : anomalyIndexOfDraw 100 (6 / 60) = 26 := by
    rw [anomalyIndexOfDraw]
    norm_num
    all_goals decide
  have e7 : anomalyIndexOfDraw 100 (7 / 60) = 27 := by
    rw [anomalyIndexOfDraw]
    norm_num
    all_goals decide
  have hcard : (buildAnomalySet 100 (100 * 8 / 100)
      [0, 1 / 60, 2 / 60, 3 / 60, 4 / 60, 5 / 60, 6 / 60, 7 / 60]).card
      = 100 * 8 / 100 := by
    rw [buildAnomalySet]
    simp only [List.foldl_cons, List.foldl_nil, e0, e1, e2, e3, e4, e5, e6, e7]
    decide
  have h := generateSoilData_spec (fun _ => 0) (fun _ => 0) (fun _ => 0)
    [0, 1 / 60, 2 / 60, 3 / 60, 4 / 60, 5 / 60, 6 / 60, 7 / 60] 100 (1 / 2)
    (by norm_num) (by norm_num) (by norm_num)
    (by intro r hr; fin_cases hr <;> norm_num) hcard
  exact ⟨h.1, h.2.2.2.1, h.2.2.1⟩
